import Mathlib

/-!
Verification of the bill-reconciliation service
(`comparer.py`, `models.py`, `qb_gateway.py`, `excel_reader.py`).

Python values are embedded as follows: `str` becomes `String`, `float`
becomes `Rat` (every amount in the repository is produced by `float(...)`;
`str(amount)` is modelled by the canonical rendering of the rational,
which is injective, matching `str` on floats up to the `-0.0`/`NaN`
corners that the data never contains), Python `dict` becomes an
association list with insert-overwrite, and fallible operations return
`Option`/`Except`.  The `Optional[str]` fields of the dataclasses are
modelled as plain strings: every constructor in the repository
(`excel_reader.read_excel_data`, `qb_gateway.fetch_bills_from_qb`)
populates them with `str` values, so the `None` defaults are never used.
-/

namespace BillSync

/-- The effective `BillRecord` dataclass of `models.py` (the second,
shadowing definition, which adds the `added_to_qb` flag). -/
structure BillRecord where
  record_id : String
  supplier : String := ""
  bank_date : String := ""
  chart_account : String := ""
  amount : Rat := 0
  memo : String := ""
  line_memo : String := ""
  source : String := "excel"
  added_to_qb : Bool := false
deriving DecidableEq

/-- The effective `Conflict` dataclass of `models.py` (the second,
shadowing definition): `record_id`, `excel_name`, `qb_name`, free-form
`reason` string. -/
structure Conflict where
  record_id : String
  excel_name : Option String
  qb_name : Option String
  reason : String
deriving DecidableEq

/-- The effective `ComparisonReport` dataclass of `models.py` (the
second, shadowing definition): three buckets, no `matched` list. -/
structure ComparisonReport where
  excel_only : List BillRecord
  qb_only : List BillRecord
  conflicts : List Conflict
deriving DecidableEq

/-- A Python `dict` from record ids to records, as an association list
whose keys are unique and kept in insertion order. -/
abbrev Dict := List (String × BillRecord)

/-- `d[k] = v`: overwrite the value in place when the key is present
(Python dicts keep the first-insertion position), else append. -/
def dictInsert (d : Dict) (k : String) (v : BillRecord) : Dict :=
  match d with
  | [] => [(k, v)]
  | (k1, v1) :: rest =>
      if k1 = k then (k, v) :: rest else (k1, v1) :: dictInsert rest k v

/-- `d.get(k)`: the value stored at `k`, if any. -/
def dictGet (d : Dict) (k : String) : Option BillRecord :=
  match d with
  | [] => none
  | (k1, v1) :: rest => if k1 = k then some v1 else dictGet rest k

/-- `d.keys()`. -/
def dictKeys (d : Dict) : List String :=
  d.map Prod.fst

/-- `{bill.record_id: bill for bill in bills}` — the dict comprehension
on lines 14-15 of `comparer.py`; a later record with the same id
overwrites the earlier one. -/
def buildDict (bills : List BillRecord) : Dict :=
  bills.foldl (fun d b => dictInsert d b.record_id b) []

/-- The last record of `l` whose `record_id` is `k` — the value
last-write-wins dict building is proved equal to. -/
def lastWithId (l : List BillRecord) (k : String) : Option BillRecord :=
  match l with
  | [] => none
  | b :: rest =>
      match lastWithId rest k with
      | some r => some r
      | none => if b.record_id = k then some b else none

/-- `str(bill.amount)` on line 56 of `comparer.py`. -/
def amountStr (a : Rat) : String :=
  toString a

/-- `str(bill)` on lines 65-66 of `comparer.py`: the dataclass-generated
`__repr__` of the effective `BillRecord`.  Python additionally quotes the
string fields; the quoting is omitted here since no claim inspects the
rendered text. -/
def reprBill (b : BillRecord) : String :=
  "BillRecord(record_id=" ++ b.record_id ++ ", supplier=" ++ b.supplier ++
    ", bank_date=" ++ b.bank_date ++ ", chart_account=" ++ b.chart_account ++
    ", amount=" ++ amountStr b.amount ++ ", memo=" ++ b.memo ++
    ", line_memo=" ++ b.line_memo ++ ", source=" ++ b.source ++
    ", added_to_qb=" ++ (if b.added_to_qb then "True" else "False") ++ ")"

/-- The `mismatch_fields` list collected on lines 35-59 of `comparer.py`
for a pair of records sharing an id: the five field rules, evaluated
independently, each appending its label. -/
def mismatchFields (e q : BillRecord) : List String :=
  (if e.line_memo = "" ∧ q.line_memo = "" ∧ e.memo ≠ q.memo
    then ["Memo mismatch"] else []) ++
  (if e.line_memo ≠ "" ∧ q.line_memo ≠ "" ∧ e.line_memo ≠ q.line_memo
    then ["LineMemo mismatch"] else []) ++
  (if e.supplier ≠ q.supplier then ["Supplier/Vendor mismatch"] else []) ++
  (if amountStr e.amount ≠ amountStr q.amount then ["Amount mismatch"] else []) ++
  (if e.chart_account ≠ q.chart_account then ["ChartAccount mismatch"] else [])

/-- The `Conflict` built on lines 62-68 of `comparer.py` for a shared id
whose `mismatch_fields` is non-empty. -/
def mkConflict (id : String) (e q : BillRecord) : Conflict :=
  { record_id := id
    excel_name := some (reprBill e)
    qb_name := some (reprBill q)
    reason := String.intercalate ", " (mismatchFields e q) }

/-- The union of ids iterated on lines 19-21 of `comparer.py`.  The
Python `set` union is iterated in an unspecified order; it is modelled
as the deduplicated concatenation of the two key lists, which has the
same members. -/
def allIds (eD qD : Dict) : List String :=
  (dictKeys eD ++ dictKeys qD).dedup

/-- The classification loop of lines 21-69 of `comparer.py`: one pass
over the id list, each iteration appending to at most one of the three
buckets. -/
def compareIds (eD qD : Dict) : List String → List BillRecord × List BillRecord × List Conflict
  | [] => ([], [], [])
  | id :: rest =>
      let r := compareIds eD qD rest
      match dictGet eD id, dictGet qD id with
      | some e, none => (e :: r.1, r.2.1, r.2.2)
      | none, some q => (r.1, q :: r.2.1, r.2.2)
      | some e, some q =>
          if mismatchFields e q = [] then r
          else (r.1, r.2.1, mkConflict id e q :: r.2.2)
      | none, none => r

/-- `compare_bills` from `comparer.py`: index both lists by `record_id`,
walk the union of ids, and assemble the report. -/
def compare_bills (excel_bills qb_bills : List BillRecord) : ComparisonReport :=
  let eD := buildDict excel_bills
  let qD := buildDict qb_bills
  let r := compareIds eD qD (allIds eD qD)
  { excel_only := r.1, qb_only := r.2.1, conflicts := r.2.2 }

/-- The excel-only selector of one loop iteration (lines 26-27). -/
def excelPick (eD qD : Dict) (id : String) : Option BillRecord :=
  match dictGet eD id, dictGet qD id with
  | some e, none => some e
  | _, _ => none

/-- The qb-only selector of one loop iteration (lines 30-31). -/
def qbPick (eD qD : Dict) (id : String) : Option BillRecord :=
  match dictGet eD id, dictGet qD id with
  | none, some q => some q
  | _, _ => none

/-- The conflict selector of one loop iteration (lines 34-69). -/
def conflictPick (eD qD : Dict) (id : String) : Option Conflict :=
  match dictGet eD id, dictGet qD id with
  | some e, some q =>
      if mismatchFields e q = [] then none else some (mkConflict id e q)
  | _, _ => none

lemma compareIds_fst (eD qD : Dict) (ids : List String) :
    (compareIds eD qD ids).1 = ids.filterMap (excelPick eD qD) := by
  induction ids with
  | nil => rfl
  | cons id rest ih =>
      simp only [compareIds, List.filterMap_cons]
      cases hE : dictGet eD id with
      | none =>
          cases hQ : dictGet qD id with
          | none => simp [excelPick, hE, hQ, ih]
          | some q => simp [excelPick, hE, hQ, ih]
      | some e =>
          cases hQ : dictGet qD id with
          | none => simp [excelPick, hE, hQ, ih]
          | some q =>
              by_cases hm : mismatchFields e q = [] <;>
                simp [excelPick, hE, hQ, hm, ih]

lemma compareIds_qb (eD qD : Dict) (ids : List String) :
    (compareIds eD qD ids).2.1 = ids.filterMap (qbPick eD qD) := by
  induction ids with
  | nil => rfl
  | cons id rest ih =>
      simp only [compareIds, List.filterMap_cons]
      cases hE : dictGet eD id with
      | none =>
          cases hQ : dictGet qD id with
          | none => simp [qbPick, hE, hQ, ih]
          | some q => simp [qbPick, hE, hQ, ih]
      | some e =>
          cases hQ : dictGet qD id with
          | none => simp [qbPick, hE, hQ, ih]
          | some q =>
              by_cases hm : mismatchFields e q = [] <;>
                simp [qbPick, hE, hQ, hm, ih]

lemma compareIds_conflicts (eD qD : Dict) (ids : List String) :
    (compareIds eD qD ids).2.2 = ids.filterMap (conflictPick eD qD) := by
  induction ids with
  | nil => rfl
  | cons id rest ih =>
      simp only [compareIds, List.filterMap_cons]
      cases hE : dictGet eD id with
      | none =>
          cases hQ : dictGet qD id with
          | none => simp [conflictPick, hE, hQ, ih]
          | some q => simp [conflictPick, hE, hQ, ih]
      | some e =>
          cases hQ : dictGet qD id with
          | none => simp [conflictPick, hE, hQ, ih]
          | some q =>
              by_cases hm : mismatchFields e q = [] <;>
                simp [conflictPick, hE, hQ, hm, ih]

lemma dictGet_dictInsert (d : Dict) (k : String) (v : BillRecord) (k1 : String) :
    dictGet (dictInsert d k v) k1 = if k = k1 then some v else dictGet d k1 := by
  induction d with
  | nil => rfl
  | cons p rest ih =>
      obtain ⟨a, b⟩ := p
      by_cases hak : a = k
      · subst hak
        by_cases hk : a = k1 <;> simp [dictInsert, dictGet, hk]
      · by_cases hk : a = k1
        · subst hk
          have : ¬ k = a := fun h => hak h.symm
          simp [dictInsert, dictGet, hak, this]
        · simp [dictInsert, dictGet, hak, hk, ih]

lemma foldl_dictInsert_get (l : List BillRecord) :
    ∀ (d : Dict) (k : String),
      dictGet (l.foldl (fun d b => dictInsert d b.record_id b) d) k =
        match lastWithId l k with
        | some v => some v
        | none => dictGet d k := by
  induction l with
  | nil => intro d k; rfl
  | cons b rest ih =>
      intro d k
      simp only [List.foldl_cons, lastWithId]
      rw [ih]
      cases lastWithId rest k with
      | some r => rfl
      | none =>
          rw [dictGet_dictInsert]
          by_cases hk : b.record_id = k <;> simp [hk]

/-- The dict comprehension is last-write-wins: looking an id up in the
index yields the last record of the list carrying that id. -/
lemma buildDict_get (l : List BillRecord) (k : String) :
    dictGet (buildDict l) k = lastWithId l k := by
  rw [buildDict, foldl_dictInsert_get]
  cases lastWithId l k <;> rfl

lemma lastWithId_mem {l : List BillRecord} {k : String} {v : BillRecord}
    (h : lastWithId l k = some v) : v ∈ l ∧ v.record_id = k := by
  induction l with
  | nil => simp [lastWithId] at h
  | cons b rest ih =>
      rw [lastWithId] at h
      cases hr : lastWithId rest k with
      | some r =>
          rw [hr] at h
          cases h
          obtain ⟨h1, h2⟩ := ih hr
          exact ⟨List.mem_cons_of_mem _ h1, h2⟩
      | none =>
          rw [hr] at h
          by_cases hk : b.record_id = k
          · rw [if_pos hk] at h
            cases h
            exact ⟨List.mem_cons_self _ _, hk⟩
          · rw [if_neg hk] at h
            cases h

lemma lastWithId_eq_none_of_not_mem {l : List BillRecord} {k : String}
    (h : ∀ b ∈ l, b.record_id ≠ k) : lastWithId l k = none := by
  induction l with
  | nil => rfl
  | cons b rest ih =>
      rw [lastWithId, ih fun x hx => h x (List.mem_cons_of_mem _ hx),
        if_neg (h b (List.mem_cons_self _ _))]

lemma lastWithId_of_nodup {l : List BillRecord} {a : BillRecord}
    (hnd : (l.map BillRecord.record_id).Nodup) (ha : a ∈ l) :
    lastWithId l a.record_id = some a := by
  induction l with
  | nil => simp at ha
  | cons b rest ih =>
      rw [List.map_cons, List.nodup_cons] at hnd
      rcases List.mem_cons.mp ha with rfl | hmem
      · rw [lastWithId, lastWithId_eq_none_of_not_mem, if_pos rfl]
        intro x hx hxk
        exact hnd.1 (hxk ▸ List.mem_map_of_mem BillRecord.record_id hx)
      · rw [lastWithId, ih hnd.2 hmem]

lemma mem_dictKeys_of_dictGet {d : Dict} {k : String} {v : BillRecord}
    (h : dictGet d k = some v) : k ∈ dictKeys d := by
  induction d with
  | nil => simp [dictGet] at h
  | cons p rest ih =>
      rw [dictGet] at h
      by_cases hk : p.1 = k
      · exact hk ▸ List.mem_map_of_mem Prod.fst (List.mem_cons_self _ _)
      · rw [if_neg hk] at h
        exact List.mem_cons_of_mem _ (ih h)

lemma dictGet_buildDict_key {l : List BillRecord} {k : String} {v : BillRecord}
    (h : dictGet (buildDict l) k = some v) : v.record_id = k ∧ v ∈ l := by
  rw [buildDict_get] at h
  obtain ⟨h1, h2⟩ := lastWithId_mem h
  exact ⟨h2, h1⟩

lemma mem_allIds_left {A : List BillRecord} {qD : Dict} {k : String}
    {v : BillRecord} (h : dictGet (buildDict A) k = some v) :
    k ∈ allIds (buildDict A) qD := by
  rw [allIds, List.mem_dedup, List.mem_append]
  exact Or.inl (mem_dictKeys_of_dictGet h)

lemma mem_allIds_right {eD : Dict} {B : List BillRecord} {k : String}
    {v : BillRecord} (h : dictGet (buildDict B) k = some v) :
    k ∈ allIds eD (buildDict B) := by
  rw [allIds, List.mem_dedup, List.mem_append]
  exact Or.inr (mem_dictKeys_of_dictGet h)

lemma excelPick_eq_some {eD qD : Dict} {id : String} {r : BillRecord} :
    excelPick eD qD id = some r ↔
      dictGet eD id = some r ∧ dictGet qD id = none := by
  rw [excelPick]
  cases hE : dictGet eD id <;> cases hQ : dictGet qD id <;> simp

lemma qbPick_eq_some {eD qD : Dict} {id : String} {r : BillRecord} :
    qbPick eD qD id = some r ↔
      dictGet eD id = none ∧ dictGet qD id = some r := by
  rw [qbPick]
  cases hE : dictGet eD id <;> cases hQ : dictGet qD id <;> simp

lemma conflictPick_eq_some {eD qD : Dict} {id : String} {c : Conflict} :
    conflictPick eD qD id = some c ↔
      ∃ e q, dictGet eD id = some e ∧ dictGet qD id = some q ∧
        mismatchFields e q ≠ [] ∧ c = mkConflict id e q := by
  rw [conflictPick]
  cases hE : dictGet eD id <;> cases hQ : dictGet qD id
  · simp
  · simp
  · simp
  · rename_i e q
    by_cases hm : mismatchFields e q = [] <;> simp [hm, eq_comm]

/-- Membership in the excel-only bucket of the report. -/
lemma mem_excel_only {A B : List BillRecord} {r : BillRecord} :
    r ∈ (compare_bills A B).excel_only ↔
      ∃ id ∈ allIds (buildDict A) (buildDict B),
        dictGet (buildDict A) id = some r ∧ dictGet (buildDict B) id = none := by
  show r ∈ (compareIds _ _ _).1 ↔ _
  rw [compareIds_fst, List.mem_filterMap]
  constructor
  · rintro ⟨id, hid, hpick⟩
    exact ⟨id, hid, excelPick_eq_some.mp hpick⟩
  · rintro ⟨id, hid, h1, h2⟩
    exact ⟨id, hid, excelPick_eq_some.mpr ⟨h1, h2⟩⟩

/-- Membership in the qb-only bucket of the report. -/
lemma mem_qb_only {A B : List BillRecord} {r : BillRecord} :
    r ∈ (compare_bills A B).qb_only ↔
      ∃ id ∈ allIds (buildDict A) (buildDict B),
        dictGet (buildDict A) id = none ∧ dictGet (buildDict B) id = some r := by
  show r ∈ (compareIds _ _ _).2.1 ↔ _
  rw [compareIds_qb, List.mem_filterMap]
  constructor
  · rintro ⟨id, hid, hpick⟩
    exact ⟨id, hid, qbPick_eq_some.mp hpick⟩
  · rintro ⟨id, hid, h1, h2⟩
    exact ⟨id, hid, qbPick_eq_some.mpr ⟨h1, h2⟩⟩

/-- Membership in the conflicts bucket of the report. -/
lemma mem_conflicts {A B : List BillRecord} {c : Conflict} :
    c ∈ (compare_bills A B).conflicts ↔
      ∃ id ∈ allIds (buildDict A) (buildDict B), ∃ e q,
        dictGet (buildDict A) id = some e ∧ dictGet (buildDict B) id = some q ∧
        mismatchFields e q ≠ [] ∧ c = mkConflict id e q := by
  show c ∈ (compareIds _ _ _).2.2 ↔ _
  rw [compareIds_conflicts, List.mem_filterMap]
  constructor
  · rintro ⟨id, hid, hpick⟩
    exact ⟨id, hid, conflictPick_eq_some.mp hpick⟩
  · rintro ⟨id, hid, he⟩
    exact ⟨id, hid, conflictPick_eq_some.mpr he⟩

lemma mem_if_singleton {c : Prop} [Decidable c] {s t : String} :
    s ∈ (if c then [t] else []) ↔ c ∧ s = t := by
  by_cases h : c <;> simp [h]

lemma mismatchFields_eq_nil_iff {e q : BillRecord} :
    mismatchFields e q = [] ↔
      ¬ (e.line_memo = "" ∧ q.line_memo = "" ∧ e.memo ≠ q.memo) ∧
      ¬ (e.line_memo ≠ "" ∧ q.line_memo ≠ "" ∧ e.line_memo ≠ q.line_memo) ∧
      ¬ e.supplier ≠ q.supplier ∧
      ¬ amountStr e.amount ≠ amountStr q.amount ∧
      ¬ e.chart_account ≠ q.chart_account := by
  simp only [mismatchFields, List.append_eq_nil, ite_eq_right_iff,
    List.cons_ne_nil, imp_false]
  tauto

lemma mismatchFields_ne_nil_iff {e q : BillRecord} :
    mismatchFields e q ≠ [] ↔
      ((e.line_memo = "" ∧ q.line_memo = "" ∧ e.memo ≠ q.memo) ∨
       (e.line_memo ≠ "" ∧ q.line_memo ≠ "" ∧ e.line_memo ≠ q.line_memo) ∨
       e.supplier ≠ q.supplier ∨
       amountStr e.amount ≠ amountStr q.amount ∨
       e.chart_account ≠ q.chart_account) := by
  rw [Ne, mismatchFields_eq_nil_iff]
  tauto

lemma memo_mem_mismatchFields {e q : BillRecord} :
    "Memo mismatch" ∈ mismatchFields e q ↔
      (e.line_memo = "" ∧ q.line_memo = "" ∧ e.memo ≠ q.memo) := by
  simp [mismatchFields, List.mem_append, mem_if_singleton]

lemma lineMemo_mem_mismatchFields {e q : BillRecord} :
    "LineMemo mismatch" ∈ mismatchFields e q ↔
      (e.line_memo ≠ "" ∧ q.line_memo ≠ "" ∧ e.line_memo ≠ q.line_memo) := by
  simp [mismatchFields, List.mem_append, mem_if_singleton]

lemma mismatchFields_comm (e q : BillRecord) :
    mismatchFields e q = mismatchFields q e := by
  rw [mismatchFields, mismatchFields,
    if_congr (show (e.line_memo = "" ∧ q.line_memo = "" ∧ e.memo ≠ q.memo) ↔
        (q.line_memo = "" ∧ e.line_memo = "" ∧ q.memo ≠ e.memo) from
      ⟨fun ⟨a, b, c⟩ => ⟨b, a, fun h => c h.symm⟩,
       fun ⟨a, b, c⟩ => ⟨b, a, fun h => c h.symm⟩⟩) rfl rfl,
    if_congr (show (e.line_memo ≠ "" ∧ q.line_memo ≠ "" ∧ e.line_memo ≠ q.line_memo) ↔
        (q.line_memo ≠ "" ∧ e.line_memo ≠ "" ∧ q.line_memo ≠ e.line_memo) from
      ⟨fun ⟨a, b, c⟩ => ⟨b, a, fun h => c h.symm⟩,
       fun ⟨a, b, c⟩ => ⟨b, a, fun h => c h.symm⟩⟩) rfl rfl,
    if_congr (show e.supplier ≠ q.supplier ↔ q.supplier ≠ e.supplier from ne_comm) rfl rfl,
    if_congr (show amountStr e.amount ≠ amountStr q.amount ↔
      amountStr q.amount ≠ amountStr e.amount from ne_comm) rfl rfl,
    if_congr (show e.chart_account ≠ q.chart_account ↔
      q.chart_account ≠ e.chart_account from ne_comm) rfl rfl]

lemma mismatchFields_amount_only {e q : BillRecord}
    (hsup : e.supplier = q.supplier)
    (hacct : e.chart_account = q.chart_account)
    (hmemo : e.line_memo = "" → q.line_memo = "" → e.memo = q.memo)
    (hlm : e.line_memo ≠ "" → q.line_memo ≠ "" → e.line_memo = q.line_memo)
    (hamt : amountStr e.amount ≠ amountStr q.amount) :
    mismatchFields e q = ["Amount mismatch"] := by
  rw [mismatchFields,
    if_neg (by rintro ⟨h1, h2, h3⟩; exact h3 (hmemo h1 h2)),
    if_neg (by rintro ⟨h1, h2, h3⟩; exact h3 (hlm h1 h2)),
    if_neg (by simpa using hsup), if_pos hamt, if_neg (by simpa using hacct)]
  rfl

lemma reason_mkConflict (id : String) (e q : BillRecord) :
    (mkConflict id e q).reason = String.intercalate ", " (mismatchFields e q) :=
  rfl

lemma record_id_mkConflict (id : String) (e q : BillRecord) :
    (mkConflict id e q).record_id = id :=
  rfl

/-- Ids of the two id lists can be walked in either order: same members. -/
lemma mem_allIds_comm {eD qD : Dict} {id : String} :
    id ∈ allIds eD qD ↔ id ∈ allIds qD eD := by
  simp [allIds, List.mem_dedup, List.mem_append, or_comm]

/-- The conflict as recorded by the swapped run: values swapped, same id
and reason. -/
def swapSides (c : Conflict) : Conflict :=
  { record_id := c.record_id, excel_name := c.qb_name,
    qb_name := c.excel_name, reason := c.reason }

lemma swapSides_swapSides (c : Conflict) : swapSides (swapSides c) = c :=
  rfl

lemma conflict_swap_mem {A B : List BillRecord} {c : Conflict}
    (hc : c ∈ (compare_bills A B).conflicts) :
    swapSides c ∈ (compare_bills B A).conflicts := by
  rw [mem_conflicts] at hc ⊢
  obtain ⟨id, hid, e, q, hE, hQ, hmm, rfl⟩ := hc
  refine ⟨id, mem_allIds_comm.mp hid, q, e, hQ, hE, ?_, ?_⟩
  · rw [mismatchFields_comm q e]
    exact hmm
  · show swapSides (mkConflict id e q) = mkConflict id q e
    simp only [swapSides, mkConflict]
    rw [mismatchFields_comm e q]

/- ------------------------------------------------------------------
   Sample records, used to instantiate the theorems on concrete data.
   ------------------------------------------------------------------ -/

def wA : BillRecord :=
  { record_id := "a1", supplier := "Acme", amount := 100, chart_account := "Travel" }

def wB : BillRecord :=
  { record_id := "b1", supplier := "Globex", amount := 50 }

def wE7 : BillRecord := { record_id := "7", supplier := "Acme", amount := 100 }

def wQ7 : BillRecord := { record_id := "7", supplier := "Acme Corp", amount := 100 }

def wE8 : BillRecord := { record_id := "8", supplier := "Acme", amount := 100 }

def wQ8 : BillRecord := { record_id := "8", supplier := "Acme", amount := 101 }

def wE9 : BillRecord := { record_id := "9", memo := "january rent" }

def wQ9 : BillRecord := { record_id := "9", memo := "february rent" }

def dup1 : BillRecord := { record_id := "d", memo := "old" }

def dup2 : BillRecord := { record_id := "d", memo := "new" }

/- ------------------------------------------------------------------
   Claim theorems.
   ------------------------------------------------------------------ -/

/-- C1 (counterexample): with disjoint id sets but a duplicated id inside
list A, the overwritten earlier record does not appear in `excel_only`. -/
theorem compare_disjoint_counterexample :
    (∀ a ∈ [dup1, dup2], ∀ b ∈ ([] : List BillRecord),
      a.record_id ≠ b.record_id) ∧
    dup1 ∈ [dup1, dup2] ∧
    dup1 ∉ (compare_bills [dup1, dup2] []).excel_only := by
  decide

/-- C1 (amended): for input lists with disjoint id sets and with ids
unique within each list, every record of list A appears in `excel_only`,
every record of list B appears in `qb_only`, and `conflicts` is empty. -/
theorem compare_disjoint_buckets (A B : List BillRecord)
    (hdisj : ∀ a ∈ A, ∀ b ∈ B, a.record_id ≠ b.record_id)
    (hA : (A.map BillRecord.record_id).Nodup)
    (hB : (B.map BillRecord.record_id).Nodup) :
    (∀ a ∈ A, a ∈ (compare_bills A B).excel_only) ∧
    (∀ b ∈ B, b ∈ (compare_bills A B).qb_only) ∧
    (compare_bills A B).conflicts = [] := by
  refine ⟨?_, ?_, ?_⟩
  · intro a ha
    rw [mem_excel_only]
    have hget : dictGet (buildDict A) a.record_id = some a := by
      rw [buildDict_get]
      exact lastWithId_of_nodup hA ha
    refine ⟨a.record_id, mem_allIds_left hget, hget, ?_⟩
    rw [buildDict_get]
    exact lastWithId_eq_none_of_not_mem fun b hb => Ne.symm (hdisj a ha b hb)
  · intro b hb
    rw [mem_qb_only]
    have hget : dictGet (buildDict B) b.record_id = some b := by
      rw [buildDict_get]
      exact lastWithId_of_nodup hB hb
    refine ⟨b.record_id, mem_allIds_right hget, ?_, hget⟩
    rw [buildDict_get]
    exact lastWithId_eq_none_of_not_mem fun a ha2 => hdisj a ha2 b hb
  · rw [List.eq_nil_iff_forall_not_mem]
    intro c hc
    rw [mem_conflicts] at hc
    obtain ⟨id, hid, e, q, hEg, hQg, _, _⟩ := hc
    obtain ⟨hek, hemem⟩ := dictGet_buildDict_key hEg
    obtain ⟨hqk, hqmem⟩ := dictGet_buildDict_key hQg
    exact hdisj e hemem q hqmem (hek.trans hqk.symm)

/-- C1 witness: the amended theorem applied to singleton lists with
distinct ids. -/
theorem compare_disjoint_buckets_witness :
    wA ∈ (compare_bills [wA] [wB]).excel_only ∧
    wB ∈ (compare_bills [wA] [wB]).qb_only ∧
    (compare_bills [wA] [wB]).conflicts = [] :=
  let h := compare_disjoint_buckets [wA] [wB] (by decide) (by decide) (by decide)
  ⟨h.1 wA (by decide), h.2.1 wB (by decide), h.2.2⟩

/-- C2: for a pair of records sharing an id and present in both indices,
`compare_bills` emits a conflict for that id iff at least one field
differs under the five field rules; in particular, identical supplier,
amount, chart account and applicable memo fields produce no conflict. -/
theorem conflict_iff_field_mismatch (A B : List BillRecord) (id : String)
    (e q : BillRecord)
    (hE : dictGet (buildDict A) id = some e)
    (hQ : dictGet (buildDict B) id = some q) :
    (∃ c ∈ (compare_bills A B).conflicts, c.record_id = id) ↔
      ((e.line_memo = "" ∧ q.line_memo = "" ∧ e.memo ≠ q.memo) ∨
       (e.line_memo ≠ "" ∧ q.line_memo ≠ "" ∧ e.line_memo ≠ q.line_memo) ∨
       e.supplier ≠ q.supplier ∨
       amountStr e.amount ≠ amountStr q.amount ∨
       e.chart_account ≠ q.chart_account) := by
  rw [← mismatchFields_ne_nil_iff]
  constructor
  · rintro ⟨c, hc, hcid⟩
    rw [mem_conflicts] at hc
    obtain ⟨id1, hid1, e1, q1, hE1, hQ1, hmm, rfl⟩ := hc
    rw [record_id_mkConflict] at hcid
    subst hcid
    rw [hE] at hE1
    rw [hQ] at hQ1
    cases hE1
    cases hQ1
    exact hmm
  · intro hmm
    exact ⟨mkConflict id e q,
      mem_conflicts.mpr ⟨id, mem_allIds_left hE, e, q, hE, hQ, hmm, rfl⟩, rfl⟩

/-- C2 witness: a supplier mismatch on a shared id yields a conflict. -/
theorem conflict_iff_field_mismatch_witness :
    ∃ c ∈ (compare_bills [wE7] [wQ7]).conflicts, c.record_id = "7" :=
  (conflict_iff_field_mismatch [wE7] [wQ7] "7" wE7 wQ7 (by decide)
    (by decide)).mpr (by decide)

/-- C3: when only the amounts' string forms differ (supplier, chart
account and the applicable memo fields agree), the conflict for the
shared id carries exactly the reason "Amount mismatch"; amount equality
is string-form equality. -/
theorem amount_only_conflict (A B : List BillRecord) (id : String)
    (e q : BillRecord)
    (hE : dictGet (buildDict A) id = some e)
    (hQ : dictGet (buildDict B) id = some q)
    (hsup : e.supplier = q.supplier)
    (hacct : e.chart_account = q.chart_account)
    (hmemo : e.line_memo = "" → q.line_memo = "" → e.memo = q.memo)
    (hlm : e.line_memo ≠ "" → q.line_memo ≠ "" → e.line_memo = q.line_memo)
    (hamt : amountStr e.amount ≠ amountStr q.amount) :
    (∃ c ∈ (compare_bills A B).conflicts, c.record_id = id ∧
      c.reason = "Amount mismatch") ∧
    (∀ c ∈ (compare_bills A B).conflicts, c.record_id = id →
      c.reason = "Amount mismatch") := by
  have hmm : mismatchFields e q = ["Amount mismatch"] :=
    mismatchFields_amount_only hsup hacct hmemo hlm hamt
  have hreason : (mkConflict id e q).reason = "Amount mismatch" := by
    rw [reason_mkConflict, hmm]
    rfl
  constructor
  · exact ⟨mkConflict id e q,
      mem_conflicts.mpr ⟨id, mem_allIds_left hE, e, q, hE, hQ,
        by rw [hmm]; exact List.cons_ne_nil _ _, rfl⟩, rfl, hreason⟩
  · intro c hc hcid
    rw [mem_conflicts] at hc
    obtain ⟨id1, hid1, e1, q1, hE1, hQ1, _, rfl⟩ := hc
    rw [record_id_mkConflict] at hcid
    subst hcid
    rw [hE] at hE1
    rw [hQ] at hQ1
    cases hE1
    cases hQ1
    exact hreason

/-- C3 witness: amounts 100 vs 101 on a shared id, all other fields
equal. -/
theorem amount_only_conflict_witness :
    ∃ c ∈ (compare_bills [wE8] [wQ8]).conflicts, c.record_id = "8" ∧
      c.reason = "Amount mismatch" :=
  (amount_only_conflict [wE8] [wQ8] "8" wE8 wQ8 (by decide) (by decide) rfl rfl
    (fun _ _ => rfl) (fun _ _ => rfl) (by decide)).1

/-- C4: the memo rule fires only when both records are parent-level
(empty `line_memo` on both sides) and the memos differ; if either side
has a non-empty `line_memo`, no "Memo mismatch" label exists; and
"LineMemo mismatch" is collected exactly when both line memos are
non-empty and differ. -/
theorem memo_rule_gating (A B : List BillRecord) (id : String)
    (e q : BillRecord)
    (hE : dictGet (buildDict A) id = some e)
    (hQ : dictGet (buildDict B) id = some q) :
    ((e.line_memo = "" ∧ q.line_memo = "" ∧ e.memo ≠ q.memo) →
      ∃ c ∈ (compare_bills A B).conflicts, c.record_id = id ∧
        "Memo mismatch" ∈ mismatchFields e q ∧
        c.reason = String.intercalate ", " (mismatchFields e q)) ∧
    ((e.line_memo ≠ "" ∨ q.line_memo ≠ "") →
      "Memo mismatch" ∉ mismatchFields e q) ∧
    ("LineMemo mismatch" ∈ mismatchFields e q ↔
      (e.line_memo ≠ "" ∧ q.line_memo ≠ "" ∧ e.line_memo ≠ q.line_memo)) := by
  refine ⟨?_, ?_, lineMemo_mem_mismatchFields⟩
  · intro hcond
    have hne : mismatchFields e q ≠ [] := by
      rw [mismatchFields_ne_nil_iff]
      exact Or.inl hcond
    exact ⟨mkConflict id e q,
      mem_conflicts.mpr ⟨id, mem_allIds_left hE, e, q, hE, hQ, hne, rfl⟩, rfl,
      memo_mem_mismatchFields.mpr hcond, rfl⟩
  · intro hor hmem
    rw [memo_mem_mismatchFields] at hmem
    rcases hor with h | h
    · exact h hmem.1
    · exact h hmem.2.1

/-- C4 witness: two parent-level records with different memos on a
shared id. -/
theorem memo_rule_gating_witness :
    ∃ c ∈ (compare_bills [wE9] [wQ9]).conflicts, c.record_id = "9" ∧
      "Memo mismatch" ∈ mismatchFields wE9 wQ9 ∧
      c.reason = String.intercalate ", " (mismatchFields wE9 wQ9) :=
  (memo_rule_gating [wE9] [wQ9] "9" wE9 wQ9 (by decide) (by decide)).1
    (by decide)

/-- C5: swapping the two input lists swaps the `excel_only` and
`qb_only` buckets and maps each conflict to the conflict with the same
id and reason and the two recorded values swapped. -/
theorem compare_swap_symmetry (A B : List BillRecord) :
    (∀ r : BillRecord, r ∈ (compare_bills A B).excel_only ↔
      r ∈ (compare_bills B A).qb_only) ∧
    (∀ r : BillRecord, r ∈ (compare_bills A B).qb_only ↔
      r ∈ (compare_bills B A).excel_only) ∧
    (∀ c : Conflict, c ∈ (compare_bills A B).conflicts ↔
      swapSides c ∈ (compare_bills B A).conflicts) := by
  refine ⟨?_, ?_, ?_⟩
  · intro r
    rw [mem_excel_only, mem_qb_only]
    constructor
    · rintro ⟨id, hid, h1, h2⟩
      exact ⟨id, mem_allIds_comm.mp hid, h2, h1⟩
    · rintro ⟨id, hid, h1, h2⟩
      exact ⟨id, mem_allIds_comm.mp hid, h2, h1⟩
  · intro r
    rw [mem_excel_only, mem_qb_only]
    constructor
    · rintro ⟨id, hid, h1, h2⟩
      exact ⟨id, mem_allIds_comm.mp hid, h2, h1⟩
    · rintro ⟨id, hid, h1, h2⟩
      exact ⟨id, mem_allIds_comm.mp hid, h2, h1⟩
  · intro c
    constructor
    · exact conflict_swap_mem
    · intro h
      have h2 := conflict_swap_mem h
      rw [swapSides_swapSides] at h2
      exact h2

/-- C6: indexing is last-write-wins — a lookup returns the last record
with the id — and every record or conflict in the report refers only to
last records. -/
theorem duplicate_ids_last_write_wins (A B : List BillRecord) (id : String) :
    dictGet (buildDict A) id = lastWithId A id ∧
    (∀ r ∈ (compare_bills A B).excel_only, lastWithId A r.record_id = some r) ∧
    (∀ r ∈ (compare_bills A B).qb_only, lastWithId B r.record_id = some r) ∧
    (∀ c ∈ (compare_bills A B).conflicts, ∃ e q,
      lastWithId A c.record_id = some e ∧ lastWithId B c.record_id = some q ∧
      c = mkConflict c.record_id e q) := by
  refine ⟨buildDict_get A id, ?_, ?_, ?_⟩
  · intro r hr
    rw [mem_excel_only] at hr
    obtain ⟨id1, _, hEg, _⟩ := hr
    obtain ⟨hk, _⟩ := dictGet_buildDict_key hEg
    rw [← buildDict_get, hk]
    exact hEg
  · intro r hr
    rw [mem_qb_only] at hr
    obtain ⟨id1, _, _, hQg⟩ := hr
    obtain ⟨hk, _⟩ := dictGet_buildDict_key hQg
    rw [← buildDict_get, hk]
    exact hQg
  · intro c hc
    rw [mem_conflicts] at hc
    obtain ⟨id1, _, e, q, hEg, hQg, _, rfl⟩ := hc
    refine ⟨e, q, ?_, ?_, rfl⟩
    · rw [record_id_mkConflict, ← buildDict_get]
      exact hEg
    · rw [record_id_mkConflict, ← buildDict_get]
      exact hQg

/-- C6 witness: with a duplicated id, the lookup returns the later
record. -/
theorem duplicate_ids_last_write_wins_witness :
    dictGet (buildDict [dup1, dup2]) "d" = some dup2 :=
  (duplicate_ids_last_write_wins [dup1, dup2] [] "d").1.trans (by decide)

/- ------------------------------------------------------------------
   qb_gateway.py: the write-back operation and the response parser.
   ------------------------------------------------------------------ -/

/-- Outcome of `_send_qbxml` (the external transport): the request
either succeeds or raises. -/
inductive Transport where
  | ok
  | fail
deriving DecidableEq

/-- `add_bill_to_qb` from `qb_gateway.py` (lines 103-163), with the
transport outcome as a parameter.  The result is the pair (value
returned by the function, final state of the mutated `bill` argument).
The two validation checks return early with the unmodified record.  On a
transport failure the `except` block sets `added_to_qb` to `False` and
its `return bill` executes.  On a successful send the function sets
`added_to_qb` to `True` and then falls off the end of its body — the
final `return bill` is indented inside the `except` block — so the
returned value is `None`. -/
def add_bill_to_qb (t : Transport) (bill : BillRecord) :
    Option BillRecord × BillRecord :=
  if bill.supplier = "" then (some bill, bill)
  else if bill.amount = 0 ∨ bill.amount ≤ 0 then (some bill, bill)
  else
    match t with
    | .ok => (none, { bill with added_to_qb := true })
    | .fail =>
        (some { bill with added_to_qb := false },
         { bill with added_to_qb := false })

def wOk : BillRecord := { record_id := "w", supplier := "Acme", amount := 10 }

def wNoSupplier : BillRecord := { record_id := "n", amount := 10 }

def wZeroAmount : BillRecord :=
  { record_id := "z", supplier := "Acme", amount := 0 }

/-- C7: evaluation of `add_bill_to_qb`.  Validation failures return the
record unmarked and a transport failure returns it with the flag false,
as the claim says; but on a successful write the function returns `None`
(while mutating the record's flag to true), contradicting the claim and
the function's own `-> BillRecord` annotation and docstring. -/
theorem add_bill_success_returns_none :
    (add_bill_to_qb .ok wOk).1 = none ∧
    (add_bill_to_qb .ok wOk).2.added_to_qb = true ∧
    add_bill_to_qb .ok wNoSupplier = (some wNoSupplier, wNoSupplier) ∧
    wNoSupplier.added_to_qb = false ∧
    add_bill_to_qb .ok wZeroAmount = (some wZeroAmount, wZeroAmount) ∧
    wZeroAmount.added_to_qb = false ∧
    (add_bill_to_qb .fail wOk).1 = some { wOk with added_to_qb := false } := by
  decide

/-- The attributes of one XML element relevant to status parsing. -/
structure RespElem where
  statusCode : Option Int
  statusMessage : Option String
deriving DecidableEq

/-- The message raised when no element carries a `statusCode`
(qb_gateway.py line 23). -/
def missingStatusMsg : String :=
  "QuickBooks response missing status information"

/-- The message raised for a non-success status (qb_gateway.py
line 28). -/
def qbErrorMsg (code : Int) (msg : String) : String :=
  "QuickBooks error (" ++ toString code ++ "): " ++ msg

/-- `_parse_response` from `qb_gateway.py` (lines 18-29).  The XML tree
is modelled as the list of its elements in document order;
`root.find(".//*[@statusCode]")` is the first element carrying a
`statusCode` attribute.  A successful parse returns `()` (the Python
function returns the root element). -/
def parse_response (elems : List RespElem) : Except String Unit :=
  match elems.find? (fun r => r.statusCode.isSome) with
  | none => .error missingStatusMsg
  | some r =>
      let code := r.statusCode.getD 0
      let msg := r.statusMessage.getD ""
      if code ≠ 0 ∧ code ≠ 1 then .error (qbErrorMsg code msg)
      else .ok ()

/-- C8: status codes 0 and 1 parse as success; any other status code
raises an error carrying the status message; absent status information
raises as well. -/
theorem parse_response_status (elems : List RespElem) :
    (elems.find? (fun r => r.statusCode.isSome) = none →
      parse_response elems = .error missingStatusMsg) ∧
    (∀ r code, elems.find? (fun r => r.statusCode.isSome) = some r →
      r.statusCode = some code →
      ((parse_response elems = .ok ()) ↔ (code = 0 ∨ code = 1)) ∧
      (¬ (code = 0 ∨ code = 1) →
        parse_response elems =
          .error (qbErrorMsg code (r.statusMessage.getD "")))) := by
  constructor
  · intro h
    rw [parse_response, h]
  · intro r code hfind hcode
    rw [parse_response, hfind]
    simp only [hcode, Option.getD_some]
    by_cases h01 : code = 0 ∨ code = 1
    · rw [if_neg (by tauto)]
      exact ⟨iff_of_true rfl h01, fun h => absurd h01 h⟩
    · rw [if_pos (by tauto)]
      refine ⟨⟨fun h => absurd h (by simp), fun h => absurd h h01⟩, fun _ => rfl⟩

/-- C8 witness: status code 5 with message "boom" raises the composed
error message. -/
theorem parse_response_status_witness :
    parse_response [⟨some 5, some "boom"⟩] = .error (qbErrorMsg 5 "boom") :=
  ((parse_response_status [⟨some 5, some "boom"⟩]).2 ⟨some 5, some "boom"⟩ 5
    (by decide) rfl).2 (by decide)

/- ------------------------------------------------------------------
   models.py: report serialization (`ComparisonReport.to_json`).
   ------------------------------------------------------------------ -/

/-- A JSON document, sufficient for the values `json.dumps` receives in
`to_json`. -/
inductive Json where
  | null
  | bool (b : Bool)
  | num (q : Rat)
  | str (s : String)
  | arr (elems : List Json)
  | obj (fields : List (String × Json))

/-- The first `ComparisonReport` dataclass of `models.py` (lines 52-82)
— the definition carrying `to_json`, with all four buckets including
`matched`.  (The later dataclass on lines 106-110 shadows it for new
construction, but `to_json` belongs to this one.) -/
structure ComparisonReportFull where
  excel_only : List BillRecord
  qb_only : List BillRecord
  conflicts : List Conflict
  matched : List BillRecord

/-- `asdict` on an optional string field. -/
def optStrJson : Option String → Json
  | none => .null
  | some s => .str s

/-- `asdict(bill)`. -/
def billJson (b : BillRecord) : Json :=
  .obj [("record_id", .str b.record_id), ("supplier", .str b.supplier),
        ("bank_date", .str b.bank_date),
        ("chart_account", .str b.chart_account), ("amount", .num b.amount),
        ("memo", .str b.memo), ("line_memo", .str b.line_memo),
        ("source", .str b.source), ("added_to_qb", .bool b.added_to_qb)]

/-- `asdict(conflict)`. -/
def conflictJson (c : Conflict) : Json :=
  .obj [("record_id", .str c.record_id),
        ("excel_name", optStrJson c.excel_name),
        ("qb_name", optStrJson c.qb_name), ("reason", .str c.reason)]

/-- `ComparisonReport.to_json` (models.py lines 61-82): the `data`
document handed to `json.dumps`.  Serialising with `json.dumps` and
parsing back with `json.loads` is the identity on this tree (finite
objects, plain strings and numbers), so the parsed document is modelled
as the document itself. -/
def to_json (r : ComparisonReportFull) : Json :=
  .obj [
    ("excel_only", .arr (r.excel_only.map billJson)),
    ("qb_only", .arr (r.qb_only.map billJson)),
    ("conflicts", .arr (r.conflicts.map conflictJson)),
    ("matched", .arr (r.matched.map billJson)),
    ("summary", .obj [
      ("total_excel_only", .num r.excel_only.length),
      ("total_qb_only", .num r.qb_only.length),
      ("total_conflicts", .num r.conflicts.length),
      ("total_matched", .num r.matched.length)])]

/-- Field access on a parsed JSON object. -/
def jsonGet (j : Json) (k : String) : Option Json :=
  match j with
  | .obj fields => (fields.find? (fun p => p.1 == k)).map Prod.snd
  | _ => none

/-- Length of an array-valued field of a parsed JSON object. -/
def jsonArrayLength (j : Json) (k : String) : Option Nat :=
  match jsonGet j k with
  | some (.arr xs) => some xs.length
  | _ => none

/-- A count stored in the `summary` object of a parsed report. -/
def summaryCount (j : Json) (k : String) : Option Rat :=
  match jsonGet j "summary" with
  | some s =>
      match jsonGet s k with
      | some (.num n) => some n
      | _ => none
  | _ => none

/-- C9: parsing a serialized report back yields a summary whose counts
equal the lengths of the corresponding serialized arrays. -/
theorem to_json_summary_counts (r : ComparisonReportFull) :
    summaryCount (to_json r) "total_excel_only" =
      (jsonArrayLength (to_json r) "excel_only").map (fun n => (n : Rat)) ∧
    summaryCount (to_json r) "total_qb_only" =
      (jsonArrayLength (to_json r) "qb_only").map (fun n => (n : Rat)) ∧
    summaryCount (to_json r) "total_conflicts" =
      (jsonArrayLength (to_json r) "conflicts").map (fun n => (n : Rat)) ∧
    summaryCount (to_json r) "total_matched" =
      (jsonArrayLength (to_json r) "matched").map (fun n => (n : Rat)) := by
  refine ⟨?_, ?_, ?_, ?_⟩ <;>
    simp [to_json, summaryCount, jsonArrayLength, jsonGet, List.find?]

/- ------------------------------------------------------------------
   excel_reader.py: `read_excel_data`.
   ------------------------------------------------------------------ -/

/-- One data row of the spreadsheet, with the seven required columns
already resolved through the header index.  A cell is `none` when empty
in the sheet. -/
structure ExcelRow where
  parent_id : Option String
  child_id : Option String
  supplier : Option String
  comments : Option String
  invoice_amount : Option String
  bank_date : Option String
  chart_account : Option String
deriving DecidableEq

/-- Python `str.strip()`: drop leading and trailing whitespace. -/
def pyStrip (s : String) : String :=
  ⟨(((s.data.dropWhile Char.isWhitespace).reverse).dropWhile
      Char.isWhitespace).reverse⟩

/-- Python `str.replace(x, "")` for a one-character `x`: delete every
occurrence of the character. -/
def pyRemoveChar (s : String) (c : Char) : String :=
  ⟨s.data.filter (fun a => a != c)⟩

/-- `str(cell or "").strip()`. -/
def cellStr (c : Option String) : String :=
  pyStrip (c.getD "")

/-- Truthiness of a cell, for `any(row)`. -/
def cellTruthy (c : Option String) : Bool :=
  match c with
  | none => false
  | some s => s != ""

/-- `any(row)` over the seven cells. -/
def rowAny (row : ExcelRow) : Bool :=
  cellTruthy row.parent_id || cellTruthy row.child_id ||
  cellTruthy row.supplier || cellTruthy row.comments ||
  cellTruthy row.invoice_amount || cellTruthy row.bank_date ||
  cellTruthy row.chart_account

/-- Numeric value of a digit string. -/
def digitsVal (cs : List Char) : Nat :=
  cs.foldl (fun n c => 10 * n + (c.toNat - 48)) 0

/-- `float(s)` on the plain decimal strings spreadsheet amount cells can
produce (optional sign, digits, optional fractional part); any other
form raises `ValueError`, modelled as `none`.  The decimal value
`±intPart.frac` is built directly as the rational
`±(intPart·10^|frac| + frac) / 10^|frac|`. -/
def parseFloat (s : String) : Option Rat :=
  let signAndRest : Int × List Char :=
    match s.data with
    | '-' :: rest => (-1, rest)
    | '+' :: rest => (1, rest)
    | _ => (1, s.data)
  let intPart := signAndRest.2.takeWhile Char.isDigit
  let rest := signAndRest.2.dropWhile Char.isDigit
  match rest with
  | [] =>
      if intPart = [] then none
      else some (mkRat (signAndRest.1 * digitsVal intPart) 1)
  | '.' :: frac =>
      if frac.all Char.isDigit ∧ (intPart ≠ [] ∨ frac ≠ []) then
        some (mkRat
          (signAndRest.1 * (digitsVal intPart * 10 ^ frac.length + digitsVal frac))
          (10 ^ frac.length))
      else none
  | _ => none

/-- `str(cell or "").replace("$", "").replace(",", "").strip()` — the
amount cell normalization (excel_reader.py lines 47-52). -/
def amountCellStr (c : Option String) : String :=
  pyStrip (pyRemoveChar (pyRemoveChar (c.getD "") '$') ',')

/-- `record_id = child_id if child_id else parent_id`
(excel_reader.py line 56). -/
def derivedId (row : ExcelRow) : String :=
  if cellStr row.child_id ≠ "" then cellStr row.child_id
  else cellStr row.parent_id

/-- One iteration of the row loop of `read_excel_data`
(excel_reader.py lines 32-77): `none` when the row is skipped — a row
with no truthy cell, a failed `float` conversion (the caught per-row
exception), or an empty derived id. -/
def readRow (row : ExcelRow) : Option BillRecord :=
  if ¬ rowAny row then none
  else
    match (if amountCellStr row.invoice_amount = "" then some 0
           else parseFloat (amountCellStr row.invoice_amount)) with
    | none => none
    | some amount =>
        if derivedId row = "" then none
        else some
          { record_id := derivedId row, supplier := cellStr row.supplier,
            bank_date := cellStr row.bank_date,
            chart_account := cellStr row.chart_account, amount := amount,
            memo := cellStr row.comments, line_memo := cellStr row.comments,
            source := "excel", added_to_qb := false }

/-- `read_excel_data` over the data rows (the header row and the
required-column validation have already resolved the seven columns). -/
def read_excel_data (rows : List ExcelRow) : List BillRecord :=
  rows.filterMap readRow

/-- C10: every record produced by `read_excel_data` has a non-empty
`record_id` (child id when present, else parent id) and `line_memo`
equal to `memo`; hence a row with a non-empty Comments cell never yields
a parent-level record (empty `line_memo`). -/
theorem excel_records_invariant (rows : List ExcelRow) :
    ∀ r ∈ read_excel_data rows,
      r.record_id ≠ "" ∧ r.line_memo = r.memo ∧
      (r.memo ≠ "" → r.line_memo ≠ "") := by
  intro r hr
  rw [read_excel_data, List.mem_filterMap] at hr
  obtain ⟨row, _, hread⟩ := hr
  rw [readRow] at hread
  split at hread
  · exact absurd hread (by simp)
  · split at hread
    · exact absurd hread (by simp)
    · split at hread
      · exact absurd hread (by simp)
      · rename_i hid
        cases hread
        exact ⟨hid, rfl, fun h => h⟩

def sampleRow : ExcelRow :=
  { parent_id := some "P1", child_id := some "", supplier := some "Acme",
    comments := some "note", invoice_amount := some "$1,234.50",
    bank_date := some "2025-01-02", chart_account := some "Travel" }

def sampleRec : BillRecord :=
  { record_id := "P1", supplier := "Acme", bank_date := "2025-01-02",
    chart_account := "Travel", amount := mkRat 2469 2, memo := "note",
    line_memo := "note", source := "excel", added_to_qb := false }

/-- C10 witness: the invariant evaluated on a concrete parsed row. -/
theorem excel_records_invariant_witness :
    sampleRec.record_id ≠ "" ∧ sampleRec.line_memo = sampleRec.memo :=
  let h := excel_records_invariant [sampleRow] sampleRec (by decide)
  ⟨h.1, h.2.1⟩

end BillSync
